import Mathlib

/-!
Shallow embedding of the entry-processing pipeline of `rss2email/feed.py`
(class `Feed`): identity resolution, seen-map deduplication, content
selection and rendering, sender and header synthesis, result classification,
and the per-run loop.  Machinery the repository consumes as external
capabilities (feedparser, html2text, uuid generation, strftime, the hash
digest, mail transport) is passed in through an explicit environment; the
definitions below are otherwise translated directly from the source.
-/

namespace RssToEmail

/-- Python `str.strip()`: drop whitespace from both ends (structural, so that
concrete witnesses evaluate inside the kernel). -/
def pyStrip (s : String) : String :=
  String.mk (((s.data.dropWhile Char.isWhitespace).reverse.dropWhile
    Char.isWhitespace).reverse)

/-- Python `s[:n]`. -/
def pyTake (s : String) (n : Nat) : String := String.mk (s.data.take n)

/-- Fuel-driven worker for `pyReplace` (structural recursion, so the kernel
can evaluate it; the fuel is the input length, which always suffices since
every step consumes at least one character). -/
def replaceFuel (old new : List Char) : Nat → List Char → List Char
  | _, [] => []
  | 0, s => s
  | fuel+1, c :: rest =>
    if old.isPrefixOf (c :: rest) ∧ old ≠ [] then
      new ++ replaceFuel old new fuel ((c :: rest).drop old.length)
    else c :: replaceFuel old new fuel rest

/-- Python `s.replace(old, new)`: every non-overlapping occurrence. -/
def pyReplace (s old new : String) : String :=
  String.mk (replaceFuel old.data new.data s.data.length s.data)

/-- Fuel-driven worker for `pySplitOn`. -/
def splitFuel (sep : List Char) : Nat → List Char → List (List Char)
  | _, [] => [[]]
  | 0, s => [s]
  | fuel+1, c :: rest =>
    if sep.isPrefixOf (c :: rest) ∧ sep ≠ [] then
      [] :: splitFuel sep fuel ((c :: rest).drop sep.length)
    else
      match splitFuel sep fuel rest with
      | [] => [[c]]
      | g :: gs => (c :: g) :: gs

/-- Python `s.split(sep)` for a non-empty separator (also the behavior of
`str.splitlines` for newline-terminated text, up to a trailing empty
group, which every consumer below discards). -/
def pySplitOn (s sep : String) : List String :=
  (splitFuel sep.data s.data.length s.data).map String.mk

/-- Keys of a Python dict as used for feedparser content dicts.  The
fallback literal at feed.py:633 uses the BUILTIN `type` object as its first
key, not the string "type"; `typeBuiltin` represents that non-string
key. -/
inductive PyKey
  | s : String → PyKey
  | typeBuiltin : PyKey
deriving DecidableEq, Repr

/-- A feedparser content dict, modelled as an insertion-ordered association
list, as built by `Feed._get_entry_content` (feed.py:604). -/
abbrev ContentDict := List (PyKey × String)

/-- Dict read access `d[k]`, as an Option (a missing key raises KeyError in
Python; callers that can hit the missing-key case are commented at use). -/
def dget (d : ContentDict) (k : PyKey) : Option String :=
  match d.find? (fun p => decide (p.1 = k)) with
  | some p => some p.2
  | none => none

/-- Total read used where the source is only reached with the key present. -/
def dgetS (d : ContentDict) (k : PyKey) : String := (dget d k).getD ""

/-- Dict write `d[k] = v`: replace in place when the key exists, else append
(Python dict assignment semantics). -/
def dset (d : ContentDict) (k : PyKey) (v : String) : ContentDict :=
  if d.any (fun p => decide (p.1 = k)) then
    d.map (fun p => if p.1 = k then (p.1, v) else p)
  else d ++ [(k, v)]

/-- A normalized `{type, value}` content variant (spec data model, section 3)
turned into the two-key dict feedparser hands the code. -/
def mkContent (ty v : String) : ContentDict :=
  [(PyKey.s "type", ty), (PyKey.s "value", v)]

/-- The dict literal returned at feed.py:633 when no candidate exists:
`{type: 'text/plain', 'value': ''}` — note the first key is the builtin
`type` object, so the dict has NO entry under the string key "type". -/
def fallbackContent : ContentDict :=
  [(PyKey.typeBuiltin, "text/plain"), (PyKey.s "value", "")]

/-- A feedparser author or publisher detail dict (name and email keys,
either possibly missing). -/
structure AuthorDetail where
  name : Option String := none
  email : Option String := none
deriving DecidableEq, Repr

/-- One enclosure record of an entry. -/
structure Enclosure where
  url : Option String := none
  src : Option String := none
deriving DecidableEq, Repr

/-- One entry-level link record (`entry.links[]`). -/
structure ELink where
  rel : Option String := none
  href : String := ""
  title : Option String := none
deriving DecidableEq, Repr

/-- The `title_detail` record of an entry. -/
structure TitleDetail where
  type : String := ""
  value : String := ""
deriving DecidableEq, Repr

/-- One feed entry as consumed by the pipeline (spec data model, section 3).
`id` is the native identifier, already normalized from the legacy
dict-shaped form (spec section 9); `content` holds the `{type, value}`
variants in feed order; `dates` maps a parsed-date kind such as
"published_parsed" to an opaque timestamp; `tags` holds the `term` field of
each tag dict, with a missing term represented as the empty string. -/
structure Entry where
  id : Option String := none
  title : Option String := none
  title_detail : Option TitleDetail := none
  content : List (String × String) := []
  summary_detail : Option (String × String) := none
  link : Option String := none
  links : List ELink := []
  enclosures : List Enclosure := []
  tags : List String := []
  author_detail : Option AuthorDetail := none
  dates : List (String × Nat) := []
deriving DecidableEq, Repr

/-- Feed-level metadata of a parse result. -/
structure FeedMeta where
  title : Option String := none
  author_detail : Option AuthorDetail := none
  publisher_detail : Option AuthorDetail := none
  errorreportsto : Option String := none
deriving DecidableEq, Repr

/-- The kind of `bozo_exception` carried by a parse result, as discriminated
by the isinstance chain of `Feed._check_for_errors` (feed.py:340).  Every
kind except `keyboardInterrupt` is logged and sets the warned flag;
`keyboardInterrupt` is re-raised. -/
inductive ExcKind
  | timeout
  | socketError
  | urlError
  | zlibError
  | ioError
  | keyboardInterrupt
  | saxParse
  | other
deriving DecidableEq, Repr

/-- A `ParsedFeedResult`: the opaque parsed-feed structure returned by the
fetch capability (spec section 3).  `url` is the redirect target read on a
301; `headers` is the HTTP header dict; absent `status` defaults to 200 via
`getattr(parsed, 'status', 200)`. -/
structure Parsed where
  status : Option Nat := none
  url : String := ""
  headers : List (String × String) := []
  version : Option String := none
  bozo : Bool := false
  bozo_exception : Option ExcKind := none
  feed : FeedMeta := {}
  entries : List Entry := []
  etag : Option String := none
  modified : Option String := none
deriving DecidableEq, Repr

/-- The configured (non-dynamic) attributes of a `Feed` that the pipeline
reads. -/
structure FeedCfg where
  to_email : String := ""
  from_email : String := ""
  force_from : Bool := false
  use_publisher_email : Bool := false
  friendly_name : Bool := true
  trust_guid : Bool := true
  html_mail : Bool := false
  date_header : Bool := false
  date_header_order : List String := []
  use_css : Bool := false
  css : String := ""
  bonus_header : String := ""
deriving DecidableEq, Repr

/-- The seen map: a Python dict from guid to last-recorded id.  Both the
guid key and the stored id may be None, hence `Option String` on both
sides.  Insertion order is kept, as for a Python dict. -/
abbrev SeenMap := List (Option String × Option String)

/-- Lookup in the seen map: `some stored` when the guid is a key. -/
def seenLookup (m : SeenMap) (g : Option String) : Option (Option String) :=
  match m.find? (fun p => decide (p.1 = g)) with
  | some p => some p.2
  | none => none

/-- `self.seen[guid] = id_`: dict assignment, replacing in place when the
key exists and appending otherwise. -/
def seenInsert (m : SeenMap) (g i : Option String) : SeenMap :=
  if m.any (fun p => decide (p.1 = g)) then
    m.map (fun p => if p.1 = g then (p.1, i) else p)
  else m ++ [(g, i)]

/-- The mutable per-feed state persisted between runs (`_dynamic_attributes`
plus the url, which `_check_for_errors` rewrites on a 301). -/
structure FeedState where
  url : String := ""
  etag : Option String := none
  modified : Option String := none
  seen : SeenMap := []
deriving DecidableEq, Repr

/-- External capabilities consumed by the pipeline (spec section 1): the id
digest (`hash(x.encode('unicode-escape')).hexdigest()` is folded into the
single opaque function `hashD`, since the spec treats the fingerprint as
opaque and only equality and presence matter), RFC-822 time formatting over
an opaque timestamp, the per-call uuid supply indexed by generation order,
html2text conversion, HTML entity unescaping, and XML escaping. -/
structure Env where
  hashD : String → String
  strf : Nat → String
  now : Nat
  uuid : Nat → String
  html2text : String → String
  unescape : String → String
  escapeXml : String → String

/-- The preferred media types, `Feed._get_entry_content` (feed.py:623). -/
def prefTypes (cfg : FeedCfg) : List String :=
  if cfg.html_mail then ["text/html", "text/plain"]
  else ["text/plain", "text/html"]

/-- The candidate list of `Feed._get_entry_content` (feed.py:620): the
content variants of the entry, plus its summary detail when present. -/
def candidates (e : Entry) : List ContentDict :=
  (e.content.map (fun p => mkContent p.1 p.2)) ++
    (match e.summary_detail with
     | some p => [mkContent p.1 p.2]
     | none => [])

/-- Embeds `Feed._get_entry_content` (feed.py:604): scan all candidates for
the first preferred type, then all candidates for the second, then take the
first candidate, then the fallback literal of feed.py:633. -/
def getEntryContent (cfg : FeedCfg) (e : Entry) : ContentDict :=
  let contents := candidates e
  match (prefTypes cfg).filterMap
      (fun t => contents.find? (fun c => decide (dget c (PyKey.s "type") = some t))) with
  | c :: _ => c
  | [] =>
    match contents with
    | c :: _ => c
    | [] => fallbackContent

/-- Embeds the tuple unpacking at feed.py:436,
`content_type,content_value = self._get_entry_content(entry)`: unpacking a
Python dict iterates its KEYS, so `content_value` is bound to the second
key of the dict.  Every dict `_get_entry_content` can return has exactly
the two keys `(_, "value")`, so the result is the literal string "value",
never the content text.  (A real feedparser content dict carries further
keys, in which case the unpacking would raise ValueError; either way the
content text is never reached.) -/
def unpackSndKey (d : ContentDict) : String :=
  match d.map Prod.fst with
  | [_, PyKey.s k] => k
  | _ => ""

/-- The fingerprint arm of `Feed._get_entry_id` (feed.py:436): the source
computes `content_type,content_value = self._get_entry_content(entry)` (the
dict-key unpacking above), strips the result, and if non-empty digests it;
else digests the link when truthy; else the title when truthy; else returns
None.  The digest expression `hash(...).hexdigest()` is folded into the
opaque `hashD` (in real Python it would additionally raise AttributeError,
since the builtin `hash` returns an int, which has no `hexdigest`). -/
def entryFingerprint (cfg : FeedCfg) (hashD : String → String) (e : Entry) :
    Option String :=
  let content_value := pyStrip (unpackSndKey (getEntryContent cfg e))
  if content_value ≠ "" then some (hashD content_value)
  else if (e.link.getD "") ≠ "" then some (hashD (e.link.getD ""))
  else if (e.title.getD "") ≠ "" then some (hashD (e.title.getD ""))
  else none

/-- Embeds `Feed._get_entry_id` (feed.py:428).  With `trust_guid` set and a
truthy native id, that id is returned (the legacy dict-shaped id form is
normalized away at ingestion, spec section 9); otherwise the content
fingerprint arm runs. -/
def getEntryId (cfg : FeedCfg) (hashD : String → String) (e : Entry) : Option String :=
  match (if cfg.trust_guid then e.id else none) with
  | some i => if i = "" then entryFingerprint cfg hashD e else some i
  | none => entryFingerprint cfg hashD e

/-- Python substring containment `needle in hay`. -/
def pyInStr (needle hay : String) : Bool :=
  (List.range (hay.toList.length + 1)).any
    (fun i => needle.toList.isPrefixOf (hay.toList.drop i))

/-- Python `str.format` of a possibly-None value: None prints as "None". -/
def pyFmt (o : Option String) : String :=
  match o with
  | some s => s
  | none => "None"

/-- Python `s.split(sep, 1)`: split at the first occurrence only.  When the
separator does not occur the second component is modelled as "" (the source
indexes `[1]` only on values that always contain the separator). -/
def pySplit1 (s sep : String) : String × String :=
  match pySplitOn s sep with
  | [] => (s, "")
  | [x] => (x, "")
  | x :: rest => (x, String.intercalate sep rest)

/-- Embeds `Feed._get_entry_title` (feed.py:445).  With a truthy
`title_detail` the title is its value, converted by html2text when the
detail type mentions html.  Otherwise the source reads the attribute
`.content` of the selected content dict (feed.py:451); content dicts carry
no "content" key, so that read is modelled as the empty string (in real
Python it raises; no claim under verification depends on the subject
line).  Finally newlines become spaces and the result is stripped. -/
def getEntryTitle (env : Env) (cfg : FeedCfg) (e : Entry) : String :=
  let title :=
    match e.title_detail with
    | some td =>
      if pyInStr "html" td.type then env.html2text td.value else td.value
    | none => pyTake ((dget (getEntryContent cfg e) (PyKey.s "content")).getD "") 70
  pyStrip (pyReplace title "\n" " ")

/-- Embeds `Feed._get_entry_date` (feed.py:455): the first present parsed
date among the configured kinds when the date header is enabled, else the
current time, formatted as an RFC-822 string through the strftime
capability. -/
def getEntryDate (env : Env) (cfg : FeedCfg) (e : Entry) : String :=
  let dt :=
    if cfg.date_header then
      match cfg.date_header_order.filterMap
          (fun datetype => e.dates.lookup (datetype ++ "_parsed")) with
      | d :: _ => d
      | [] => env.now
    else env.now
  env.strf dt

/-- Embeds `Feed._get_entry_tags` (feed.py:560): the comma join of the
non-empty tag terms, or None when there are none. -/
def getEntryTags (e : Entry) : Option String :=
  let taglist := e.tags.filter (fun t => t ≠ "")
  if taglist ≠ [] then some (String.intercalate "," taglist) else none

/-- Embeds `Feed._get_entry_name` (feed.py:465): empty unless friendly
names are enabled; else the feed title joined with the first truthy author
name of entry then feed; when still empty and publisher email is enabled,
the publisher name; HTML entities unescaped at the end. -/
def getEntryName (env : Env) (cfg : FeedCfg) (parsed : Parsed) (e : Entry) : String :=
  if !cfg.friendly_name then ""
  else
    let s1 := parsed.feed.title.getD ""
    let tryAuthor := fun (x : Option AuthorDetail) =>
      match x with
      | some d =>
        match d.name with
        | some n => if n ≠ "" then some n else none
        | none => none
      | none => none
    let s2 :=
      match tryAuthor e.author_detail with
      | some n => (if s1 ≠ "" then s1 ++ ": " else s1) ++ n
      | none =>
        match tryAuthor parsed.feed.author_detail with
        | some n => (if s1 ≠ "" then s1 ++ ": " else s1) ++ n
        | none => s1
    let s3 :=
      if s2 = "" ∧ cfg.use_publisher_email then
        match parsed.feed.publisher_detail with
        | some pd =>
          match pd.name with
          | some n => (if s2 ≠ "" then s2 ++ ": " else s2) ++ n
          | none => s2
        | none => s2
      else s2
    env.unescape s3

/-- Embeds `Feed._validate_email` (feed.py:508): an address is well-formed
only if splitting on the at sign yields exactly two non-empty parts;
otherwise the configured default (here always `from_email`, matching the
call sites, which never pass a default). -/
def validateEmail (cfg : FeedCfg) (email : String) : String :=
  let parts := pySplitOn email "@"
  if parts.length ≠ 2 ∨ parts.contains "" then cfg.from_email else email

/-- Embeds `Feed._get_entry_address` (feed.py:532): with `force_from` the
configured default; else the entry author email, else the feed author
email, else (when publisher fallback is enabled) the feed publisher email
or the error-reports-to address, else the default; every candidate passes
through `validateEmail`. -/
def getEntryAddress (cfg : FeedCfg) (parsed : Parsed) (e : Entry) : String :=
  if cfg.force_from then cfg.from_email
  else
    let emailOf := fun (x : Option AuthorDetail) =>
      match x with
      | some d => d.email
      | none => none
    match emailOf e.author_detail with
    | some em => validateEmail cfg em
    | none =>
      match emailOf parsed.feed.author_detail with
      | some em => validateEmail cfg em
      | none =>
        if cfg.use_publisher_email then
          match emailOf parsed.feed.publisher_detail with
          | some em => validateEmail cfg em
          | none =>
            match parsed.feed.errorreportsto with
            | some er => if er ≠ "" then validateEmail cfg er else cfg.from_email
            | none => cfg.from_email
        else cfg.from_email

/-- Modelled from the spec: the external `email.utils.formataddr`
capability (spec section 4.5) performs RFC-2822 mailbox formatting and an
empty name yields the bare address. -/
def formataddr (name address : String) : String :=
  if name = "" then address else name ++ " <" ++ address ++ ">"

/-- Embeds `Feed._get_entry_email` (feed.py:553). -/
def getEntryEmail (env : Env) (cfg : FeedCfg) (parsed : Parsed) (e : Entry) : String :=
  formataddr (getEntryName env cfg parsed e) (getEntryAddress cfg parsed e)

/-- OrderedDict assignment `hs[k] = v` (feed.py:410): replace the value in
place at the original position when the key exists, else append. -/
def odSet (hs : List (String × String)) (k v : String) : List (String × String) :=
  if hs.any (fun p => decide (p.1 = k)) then
    hs.map (fun p => if p.1 = k then (p.1, v) else p)
  else hs ++ [(k, v)]

/-- Observation helper: the value stored under a key of an ordered header
list (first occurrence), mirroring Python dict lookup. -/
def hdrLookup (hs : List (String × String)) (k : String) : Option String :=
  match hs.find? (fun p => decide (p.1 = k)) with
  | some p => some p.2
  | none => none

/-- One line of the bonus-header block (feed.py:407): a line containing a
colon is split at the first colon, key and value are stripped, and the pair
is assigned into the ordered header dict; a line without a colon is logged
as malformed and skipped. -/
def bonusLine (hs : List (String × String)) (line : String) : List (String × String) :=
  match pySplitOn line ":" with
  | key :: v :: rest =>
    odSet hs (pyStrip key) (pyStrip (String.intercalate ":" (v :: rest)))
  | _ => hs

/-- The bonus-header application loop of `Feed._process_entry`
(feed.py:406): when the bonus header text is truthy, each of its lines is
processed in order. -/
def applyBonus (bonus : String) (hs : List (String × String)) : List (String × String) :=
  if bonus ≠ "" then (pySplitOn bonus "\n").foldl bonusLine hs else hs

/-- The synthesized header dict of `Feed._process_entry` (feed.py:394)
after the removal loop of feed.py:403, which drops every pair whose value
is None (on the era-appropriate pure-Python OrderedDict the pops during
iteration behave as a filter of the None-valued keys). -/
def synthHeaders (env : Env) (cfg : FeedCfg) (url : String) (uu : String)
    (id_ : Option String) (link : Option String) (e : Entry) :
    List (String × String) :=
  ([("Date", some (getEntryDate env cfg e)),
    ("Message-ID", some ("<" ++ uu ++ "@dev.null.invalid>")),
    ("User-Agent", some "rss2email"),
    ("X-RSS-Feed", some url),
    ("X-RSS-ID", id_),
    ("X-RSS-URL", link),
    ("X-RSS-TAGS", getEntryTags e)] :
      List (String × Option String)).filterMap
    (fun p => p.2.map (fun v => (p.1, v)))

/-- The full header list passed to message composition: the synthesized
headers with the bonus-header block applied (feed.py:394 through 414). -/
def entryHeaders (env : Env) (cfg : FeedCfg) (url : String) (uu : String)
    (id_ : Option String) (link : Option String) (e : Entry) :
    List (String × String) :=
  applyBonus cfg.bonus_header (synthHeaders env cfg url uu id_ link e)

/-- The known-public-reader URL rewrite applied to via links (feed.py:680):
Python `str.replace` replaces every occurrence. -/
def googleReaderRewrite (u : String) : String :=
  pyReplace u "http://www.google.com/reader/public/atom/"
    "http://www.google.com/reader/view/"

/-- The title shown for a via link (feed.py:683): the link title when
truthy, else the rewritten URL itself. -/
def viaTitle (l : ELink) (url : String) : String :=
  match l.title with
  | some t => if t ≠ "" then t else url
  | none => url

/-- The enclosure footer lines of the HTML mode (feed.py:666). -/
def enclosureLinesHtml (e : Entry) : List String :=
  (e.enclosures.map (fun enc =>
    (if (enc.url.getD "") ≠ "" then
      ["<p>Enclosure: <a href=\"" ++ enc.url.getD "" ++ "\">" ++
        enc.url.getD "" ++ "</a></p>"]
     else [])
    ++
    (if (enc.src.getD "") ≠ "" then
      ["<p>Enclosure: <a href=\"" ++ enc.src.getD "" ++ "\">" ++
        enc.src.getD "" ++ "</a></p>",
       "<p><img src=\"" ++ enc.src.getD "" ++ "\" /></p>"]
     else []))).flatten

/-- The via-link footer lines of the HTML mode (feed.py:677). -/
def viaLinesHtml (e : Entry) : List String :=
  (e.links.map (fun l =>
    if l.rel == some "via" then
      let url := googleReaderRewrite l.href
      ["<p>Via <a href=\"" ++ url ++ "\">" ++ viaTitle l url ++ "</a></p>"]
    else [])).flatten

/-- The enclosure lines of the plain-text mode (feed.py:704). -/
def enclosureLinesPlain (e : Entry) : List String :=
  (e.enclosures.map (fun enc =>
    (if (enc.url.getD "") ≠ "" then ["Enclosure: " ++ enc.url.getD ""] else [])
    ++
    (if (enc.src.getD "") ≠ "" then ["Enclosure: " ++ enc.src.getD ""] else []))).flatten

/-- The via lines of the plain-text mode (feed.py:709). -/
def viaLinesPlain (e : Entry) : List String :=
  (e.links.map (fun l =>
    if l.rel == some "via" then
      let url := googleReaderRewrite l.href
      ["Via: " ++ viaTitle l url ++ " " ++ url]
    else [])).flatten

/-- Whether the selected content counts as HTML for rendering
(feed.py:657, feed.py:698): its type is text/html or application/xhtml+xml.
On the fallback dict of feed.py:633 the read `content['type']` has no
string key "type" (a KeyError in real Python); the failed lookup is
modelled as not HTML. -/
def contentIsHtml (c : ContentDict) : Bool :=
  decide (dget c (PyKey.s "type") = some "text/html") ||
    decide (dget c (PyKey.s "type") = some "application/xhtml+xml")

/-- Embeds `Feed._process_entry_content` (feed.py:635): wrap the content in
a full HTML document (HTML mode) or convert it to text and append the URL,
enclosure and via footer (plain mode), writing the resulting type and value
back into the content dict. -/
def processEntryContent (env : Env) (cfg : FeedCfg) (e : Entry)
    (c : ContentDict) (link : Option String) (subject : String) : ContentDict :=
  if cfg.html_mail then
    let lines :=
      ["<!DOCTYPE html>", "<html>", "  <head>"]
      ++ (if cfg.use_css ∧ cfg.css ≠ "" then
            ["    <style type=\"text/css\">", cfg.css, "    </style>"]
          else [])
      ++ ["</head>", "<body>", "<div id=\"entry>",
          "<h1 class=\"header\"><a href=\"" ++ pyFmt link ++ "\">" ++ subject ++
            "</a></h1>",
          "<div id=\"body\"><table><tr><td>"]
      ++ [if contentIsHtml c then pyStrip (dgetS c (PyKey.s "value"))
          else env.escapeXml (pyStrip (dgetS c (PyKey.s "value")))]
      ++ ["</td></tr></table></div>"]
      ++ ["<div class=\"footer\"><p>URL: <a href=\"" ++ pyFmt link ++ "\">" ++
            pyFmt link ++ "</a></p>"]
      ++ enclosureLinesHtml e
      ++ viaLinesHtml e
      ++ ["</div>", "</div>", "</body>", "</html>", ""]
    dset (dset c (PyKey.s "type") "text/html")
      (PyKey.s "value") (String.intercalate "\n" lines)
  else
    let lines :=
      [if contentIsHtml c then env.html2text (dgetS c (PyKey.s "value"))
       else dgetS c (PyKey.s "value")]
      ++ [""]
      ++ ["URL: " ++ pyFmt link]
      ++ enclosureLinesPlain e
      ++ viaLinesPlain e
    dset (dset c (PyKey.s "type") "text/plain")
      (PyKey.s "value") (String.intercalate "\n" lines)

/-- An email message (spec data model, section 3). -/
structure Message where
  sender : String := ""
  recipient : String := ""
  subject : String := ""
  body : String := ""
  contentType : String := ""
  headers : List (String × String) := []
deriving DecidableEq, Repr

/-- Modelled from the spec: the external mail-composition capability
`rss2email.email.get_message` (outside this source file) packages the
sender, recipient, subject, body, content subtype and ordered extra-header
list into a Message. -/
def getMessage (sender recipient subject body contentType : String)
    (extra : List (String × String)) : Message :=
  { sender := sender, recipient := recipient, subject := subject,
    body := body, contentType := contentType, headers := extra }

/-- The tuple yielded per new entry by `Feed._process_entry`
(feed.py:426): `(guid, id_, sender, message)`. -/
structure Emission where
  guid : Option String := none
  id : Option String := none
  sender : String := ""
  message : Message := {}
deriving DecidableEq, Repr

/-- The dedup key of `Feed._process_entry` (feed.py:384),
`guid = entry['id'] or id_`: the native id when truthy, else the derived
id (the entry id is the normalized optional field of the data model, spec
section 3). -/
def entryGuid (env : Env) (cfg : FeedCfg) (e : Entry) : Option String :=
  match e.id with
  | some s => if s = "" then getEntryId cfg env.hashD e else some s
  | none => getEntryId cfg env.hashD e

/-- The id resolved for an entry in this run. -/
def entryId (env : Env) (cfg : FeedCfg) (e : Entry) : Option String :=
  getEntryId cfg env.hashD e

/-- Embeds `Feed._process_entry` (feed.py:379): resolve id and guid; when
the guid is a key of the seen map and the stored value equals the id, skip
(return None); otherwise resolve sender, subject, headers and content, and
build the message tuple.  `uu` is the uuid drawn for the Message-ID. -/
def processEntry (env : Env) (cfg : FeedCfg) (url : String) (parsed : Parsed)
    (seen : SeenMap) (uu : String) (e : Entry) : Option Emission :=
  let id_ := entryId env cfg e
  let guid := entryGuid env cfg e
  if decide (seenLookup seen guid = some id_) then none
  else
    let sender := getEntryEmail env cfg parsed e
    let link := e.link
    let subject := getEntryTitle env cfg e
    let headers := entryHeaders env cfg url uu id_ link e
    let c := processEntryContent env cfg e (getEntryContent cfg e) link subject
    some { guid := guid, id := id_, sender := sender,
           message := getMessage sender cfg.to_email subject
             (dgetS c (PyKey.s "value"))
             (pySplit1 (dgetS c (PyKey.s "type")) "/").2
             headers }

/-- The fatal outcomes of `Feed._check_for_errors` (feed.py:308). -/
inductive CheckErr
  | http : Nat → CheckErr
  | keyboardInterrupt : CheckErr
  | nameErrorFeed : CheckErr
deriving DecidableEq, Repr

/-- The classification of `Feed._check_for_errors` (feed.py:308), returning
the fatal outcome when one is raised.  A status outside 200/301/302/304 is
an HTTPError; a KeyboardInterrupt bozo exception is re-raised; every other
warning branch only sets the `warned` flag.  The final empty-result check
(feed.py:373) requires `not warned` together with `not version`, yet a
missing version itself sets `warned` (feed.py:337), so that branch cannot
fire; were it reached, the raise statement evaluates the undefined name
`feed` (feed.py:377), i.e. it would raise NameError, not ProcessingError —
represented by `nameErrorFeed`. -/
def classifyErr (parsed : Parsed) : Option CheckErr :=
  let status := parsed.status.getD 200
  if status ≠ 301 ∧ ¬(status = 200 ∨ status = 302 ∨ status = 304) then
    some (CheckErr.http status)
  else if parsed.bozo_exception = some ExcKind.keyboardInterrupt then
    some CheckErr.keyboardInterrupt
  else
    let w1 := parsed.headers.isEmpty
    let w2 := (!parsed.headers.isEmpty) &&
      (pyInStr "html" (match parsed.headers.find? (fun p => p.1 == "content-type") with
                       | some p => p.2
                       | none => "rss") ||
       ((match parsed.headers.find? (fun p => p.1 == "content-length") with
         | some p => p.2
         | none => "1") == "0"))
    let version := parsed.version.getD ""
    let w3 := version == ""
    let w4 := parsed.bozo_exception.isSome || parsed.bozo
    let warned := w1 || w2 || w3 || w4
    if (!warned) && (decide (status = 200) || decide (status = 302)) &&
        parsed.entries.isEmpty && (version == "") then
      some CheckErr.nameErrorFeed
    else none

/-- Embeds `Feed._check_for_errors` (feed.py:308) as seen by the caller: a
fatal outcome, or the feed url after the 301 redirect update
(feed.py:312). -/
def checkForErrors (url : String) (parsed : Parsed) : Except CheckErr String :=
  match classifyErr parsed with
  | some err => Except.error err
  | none =>
    Except.ok (if parsed.status.getD 200 = 301 then parsed.url else url)

/-- The fatal outcomes of `Feed.run` (feed.py:731). -/
inductive RunErr
  | noToEmail : RunErr
  | check : CheckErr → RunErr
deriving DecidableEq, Repr

/-- The entry loop of `Feed.run` (feed.py:747) over the already-reversed
entry list: `_process` is a generator, so for each yielded tuple run
records `self.seen[guid] = id_` before the next entry is examined.  `n`
indexes the uuid supply. -/
def runLoop (env : Env) (cfg : FeedCfg) (url : String) (parsed : Parsed)
    (seen : SeenMap) (n : Nat) (es : List Entry) : SeenMap × List Emission :=
  match es with
  | [] => (seen, [])
  | e :: rest =>
    match processEntry env cfg url parsed seen (env.uuid n) e with
    | none => runLoop env cfg url parsed seen (n + 1) rest
    | some em =>
      let next := runLoop env cfg url parsed (seenInsert seen em.guid em.id)
        (n + 1) rest
      (next.1, em :: next.2)

/-- Embeds `Feed.run` (feed.py:731) from the parse result on: fail when no
recipient is configured; classify the result (updating the url on a 301);
iterate the entries in reverse (oldest first, feed.py:302), skipping seen
entries and recording each emitted guid/id pair; finally overwrite the etag
and modified cursor from the parse result (feed.py:752). -/
def run (env : Env) (cfg : FeedCfg) (parsed : Parsed) (st : FeedState) :
    Except RunErr (FeedState × List Emission) :=
  if cfg.to_email = "" then Except.error RunErr.noToEmail
  else
    match checkForErrors st.url parsed with
    | Except.error err => Except.error (RunErr.check err)
    | Except.ok url1 =>
      Except.ok
        ({ url := url1, etag := parsed.etag, modified := parsed.modified,
           seen := (runLoop env cfg url1 parsed st.seen 0
             parsed.entries.reverse).1 },
         (runLoop env cfg url1 parsed st.seen 0 parsed.entries.reverse).2)

/-- The guid/id pairs the run records for a list of entries, in order. -/
def pairsOf (env : Env) (cfg : FeedCfg) (es : List Entry) : SeenMap :=
  es.map (fun e => (entryGuid env cfg e, entryId env cfg e))

/-- A concrete environment used by the closed evaluation theorems: the
opaque capabilities are instantiated with simple injective functions. -/
def envW : Env :=
  { hashD := fun s => "h:" ++ s, strf := fun n => "time" ++ toString n,
    now := 7, uuid := fun n => "uuid" ++ toString n,
    html2text := fun s => "t:" ++ s, unescape := id, escapeXml := id }

/-- A concrete configuration with a recipient and trusted guids. -/
def cfgW : FeedCfg :=
  { to_email := "a@b.com", from_email := "d@e.f", trust_guid := true }

/-- A concrete configuration with `trust_guid` disabled. -/
def cfgNoTrust : FeedCfg :=
  { to_email := "a@b.com", from_email := "d@e.f", trust_guid := false }

/-- A benign entry with a native id, used by the run-level witnesses. -/
def entryW (i : String) : Entry :=
  { id := some i,
    title_detail := some { type := "text/plain", value := "title " ++ i },
    content := [("text/plain", "body " ++ i)] }

/-- A parse result around a list of entries that passes classification:
status 200, ordinary headers, a detected version. -/
def parsedW (es : List Entry) : Parsed :=
  { status := some 200, headers := [("content-type", "application/rss+xml")],
    version := some "rss20", entries := es }

/-- The duplicate-entry parse result: the same entry appears twice. -/
def parsedDup : Parsed := parsedW [entryW "g", entryW "g"]

/-- An initial state with an empty seen map. -/
def stW : FeedState := { url := "http://feed.example/rss" }

/-- Entry with content "AAA" and distinct link and title, for the identity
claims. -/
def entryA : Entry :=
  { content := [("text/plain", "AAA")], link := some "http://a", title := some "TA" }

/-- Entry with content "BBB" and distinct link and title. -/
def entryB : Entry :=
  { content := [("text/plain", "BBB")], link := some "http://b", title := some "TB" }

/-- Entry with no content variants at all but with a link and a title. -/
def entryLinkOnly : Entry :=
  { link := some "http://only-link", title := some "only title" }

/-- Parse result with status 404. -/
def parsed404 : Parsed := { status := some 404 }

/-- Parse result with a 301 redirect to a new URL. -/
def parsed301 : Parsed :=
  { status := some 301, url := "http://new.example/rss",
    headers := [("content-type", "application/rss+xml")], version := some "rss20",
    entries := [entryW "g"] }

/-- Parse result with status 200, ordinary headers, zero entries and no
detected version: the combination the spec calls fatal. -/
def parsed200Empty : Parsed :=
  { status := some 200,
    headers := [("content-type", "application/rss+xml"), ("content-length", "123")],
    version := none, entries := [] }

/-- The empty entry: no content, no summary, no link, no tags. -/
def entryEmpty : Entry := {}

/-- Configuration preferring HTML mail. -/
def cfgHtml : FeedCfg := { cfgW with html_mail := true }

/-- Entry whose candidates are a text/plain "P" then a text/html "H". -/
def entryPH : Entry := { content := [("text/plain", "P"), ("text/html", "H")] }

/-- A small built header list for the bonus-header witness. -/
def hs10 : List (String × String) := [("Date", "d0"), ("User-Agent", "ua0")]

/-- A bonus-header line whose trimmed key collides with User-Agent. -/
def line10 : String := "User-Agent: custom"

/-- Two-entry parse result in native newest-first order: e2 then e1. -/
def parsedTwo : Parsed := parsedW [entryW "e2", entryW "e1"]

/-- A state carrying a previous fetch cursor, for the frame-effect witness. -/
def stOld : FeedState :=
  { url := "http://feed.example/rss", etag := some "old-etag",
    modified := some "old-modified" }

theorem seenLookup_nil (g : Option String) : seenLookup [] g = none := rfl

theorem seenLookup_cons (p : Option String × Option String) (m : SeenMap)
    (g : Option String) :
    seenLookup (p :: m) g = if p.1 = g then some p.2 else seenLookup m g := by
  by_cases h : p.1 = g <;> simp [seenLookup, List.find?, h]

theorem seenLookup_append (a b : SeenMap) (g : Option String) :
    seenLookup (a ++ b) g =
      match seenLookup a g with
      | some v => some v
      | none => seenLookup b g := by
  induction a with
  | nil => simp [seenLookup_nil]
  | cons p a ih =>
    by_cases h : p.1 = g <;> simp [seenLookup_cons, h, ih]

theorem seenLookup_none_any (m : SeenMap) (g : Option String)
    (h : seenLookup m g = none) :
    m.any (fun p => decide (p.1 = g)) = false := by
  induction m with
  | nil => rfl
  | cons p m ih =>
    rw [seenLookup_cons] at h
    by_cases hp : p.1 = g
    · simp [hp] at h
    · rw [if_neg hp] at h
      rw [List.any_cons]
      rw [ih h]
      simp [hp]

theorem seenInsert_fresh (m : SeenMap) (g i : Option String)
    (h : seenLookup m g = none) :
    seenInsert m g i = m ++ [(g, i)] := by
  unfold seenInsert
  rw [seenLookup_none_any m g h]
  simp

theorem processEntry_eq_none_iff (env : Env) (cfg : FeedCfg) (url : String)
    (parsed : Parsed) (seen : SeenMap) (uu : String) (e : Entry) :
    processEntry env cfg url parsed seen uu e = none ↔
      seenLookup seen (entryGuid env cfg e) = some (entryId env cfg e) := by
  unfold processEntry
  by_cases h : seenLookup seen (entryGuid env cfg e) = some (entryId env cfg e) <;>
    simp [h]

theorem processEntry_guid_id (env : Env) (cfg : FeedCfg) (url : String)
    (parsed : Parsed) (seen : SeenMap) (uu : String) (e : Entry) (em : Emission)
    (h : processEntry env cfg url parsed seen uu e = some em) :
    em.guid = entryGuid env cfg e ∧ em.id = entryId env cfg e := by
  unfold processEntry at h
  by_cases hc : seenLookup seen (entryGuid env cfg e) = some (entryId env cfg e)
  · simp [hc] at h
  · simp [hc] at h
    obtain rfl := h.symm
    exact ⟨rfl, rfl⟩

theorem runLoop_all_seen (env : Env) (cfg : FeedCfg) (url : String)
    (parsed : Parsed) (es : List Entry) :
    ∀ (seen : SeenMap) (n : Nat),
    (∀ e ∈ es, seenLookup seen (entryGuid env cfg e) = some (entryId env cfg e)) →
    runLoop env cfg url parsed seen n es = (seen, []) := by
  induction es with
  | nil => intro seen n _; rfl
  | cons e rest ih =>
    intro seen n h
    have hskip : processEntry env cfg url parsed seen (env.uuid n) e = none :=
      (processEntry_eq_none_iff env cfg url parsed seen (env.uuid n) e).mpr
        (h e (by simp))
    rw [runLoop, hskip]
    exact ih seen (n + 1) (fun x hx => h x (by simp [hx]))

theorem runLoop_all_fresh (env : Env) (cfg : FeedCfg) (url : String)
    (parsed : Parsed) (es : List Entry) :
    ∀ (seen : SeenMap) (n : Nat),
    (∀ e ∈ es, seenLookup seen (entryGuid env cfg e) = none) →
    ((es.map (entryGuid env cfg)).Nodup) →
    (runLoop env cfg url parsed seen n es).1 = seen ++ pairsOf env cfg es ∧
    (runLoop env cfg url parsed seen n es).2.length = es.length ∧
    (runLoop env cfg url parsed seen n es).2.map (fun em => (em.guid, em.id)) =
      pairsOf env cfg es := by
  induction es with
  | nil => intro seen n _ _; exact ⟨by simp [runLoop, pairsOf], rfl, rfl⟩
  | cons e rest ih =>
    intro seen n hfresh hnodup
    have he : seenLookup seen (entryGuid env cfg e) = none := hfresh e (by simp)
    have hproc : processEntry env cfg url parsed seen (env.uuid n) e ≠ none := by
      rw [Ne, processEntry_eq_none_iff, he]
      simp
    obtain ⟨em, hem⟩ := Option.ne_none_iff_exists'.mp hproc
    obtain ⟨hg, hi⟩ :=
      processEntry_guid_id env cfg url parsed seen (env.uuid n) e em hem
    have hins : seenInsert seen em.guid em.id =
        seen ++ [(entryGuid env cfg e, entryId env cfg e)] := by
      rw [hg, hi]
      exact seenInsert_fresh seen _ _ he
    have hmapcons : (e :: rest).map (entryGuid env cfg) =
        entryGuid env cfg e :: rest.map (entryGuid env cfg) := rfl
    rw [hmapcons] at hnodup
    have hnotmem := (List.nodup_cons.mp hnodup).1
    have hnodup2 := (List.nodup_cons.mp hnodup).2
    have hfresh2 : ∀ x ∈ rest,
        seenLookup (seen ++ [(entryGuid env cfg e, entryId env cfg e)])
          (entryGuid env cfg x) = none := by
      intro x hx
      rw [seenLookup_append]
      have h1 : seenLookup seen (entryGuid env cfg x) = none :=
        hfresh x (by simp [hx])
      have hne : entryGuid env cfg e ≠ entryGuid env cfg x := by
        intro hcontr
        exact hnotmem (hcontr ▸ List.mem_map_of_mem (entryGuid env cfg) hx)
      have h2 : seenLookup [(entryGuid env cfg e, entryId env cfg e)]
          (entryGuid env cfg x) = none := by
        rw [seenLookup_cons]
        simp [hne, seenLookup_nil]
      rw [h1, h2]
    obtain ⟨ih1, ih2, ih3⟩ :=
      ih (seen ++ [(entryGuid env cfg e, entryId env cfg e)]) (n + 1) hfresh2 hnodup2
    rw [runLoop, hem]
    refine ⟨?_, ?_, ?_⟩
    · simp only []
      rw [hins, ih1, List.append_assoc]
      rfl
    · simp only [List.length_cons]
      rw [hins, ih2]
    · simp only [List.map_cons]
      rw [hins, ih3, hg, hi]
      rfl

theorem pairs_lookup (env : Env) (cfg : FeedCfg) (es : List Entry) :
    ∀ e ∈ es, ((es.map (entryGuid env cfg)).Nodup) →
    seenLookup (pairsOf env cfg es) (entryGuid env cfg e) =
      some (entryId env cfg e) := by
  induction es with
  | nil => intro e he; simp at he
  | cons e0 rest ih =>
    intro e he hnodup
    have hmapcons : (e0 :: rest).map (entryGuid env cfg) =
        entryGuid env cfg e0 :: rest.map (entryGuid env cfg) := rfl
    rw [hmapcons] at hnodup
    have hnotmem := (List.nodup_cons.mp hnodup).1
    have hnodup2 := (List.nodup_cons.mp hnodup).2
    rcases List.mem_cons.mp he with rfl | hrest
    · rw [pairsOf]
      simp only [List.map_cons]
      rw [seenLookup_cons]
      simp
    · have hne : entryGuid env cfg e0 ≠ entryGuid env cfg e := by
        intro hcontr
        exact hnotmem (hcontr ▸ List.mem_map_of_mem (entryGuid env cfg) hrest)
      rw [pairsOf]
      simp only [List.map_cons]
      rw [seenLookup_cons]
      rw [if_neg hne]
      exact ih e hrest hnodup2


theorem candidates_shape (e : Entry) :
    ∀ c ∈ candidates e, ∃ t v, c = mkContent t v := by
  intro c hc
  unfold candidates at hc
  rcases List.mem_append.mp hc with h | h
  · obtain ⟨p, _, rfl⟩ := List.mem_map.mp h
    exact ⟨p.1, p.2, rfl⟩
  · cases hsd : e.summary_detail with
    | some p =>
      rw [hsd] at h
      simp at h
      exact ⟨p.1, p.2, by rw [h]⟩
    | none =>
      rw [hsd] at h
      simp at h

theorem unpackSndKey_mkContent (t v : String) :
    unpackSndKey (mkContent t v) = "value" := rfl

theorem getEntryContent_mem_or_fallback (cfg : FeedCfg) (e : Entry) :
    getEntryContent cfg e ∈ candidates e ∨ getEntryContent cfg e = fallbackContent := by
  simp only [getEntryContent]
  split
  case h_1 c rest hsel =>
    left
    have hcmem : c ∈ (prefTypes cfg).filterMap
        (fun t => (candidates e).find?
          (fun c => decide (dget c (PyKey.s "type") = some t))) := by
      rw [hsel]
      simp
    obtain ⟨t, _, hfind⟩ := List.mem_filterMap.mp hcmem
    exact List.mem_of_find?_eq_some hfind
  case h_2 =>
    split
    case h_1 c rest hcand =>
      left
      rw [hcand]
      simp
    case h_2 => right; rfl

theorem unpackSndKey_getEntryContent (cfg : FeedCfg) (e : Entry) :
    unpackSndKey (getEntryContent cfg e) = "value" := by
  rcases getEntryContent_mem_or_fallback cfg e with h | h
  · obtain ⟨t, v, hc⟩ := candidates_shape e _ h
    rw [hc]
    rfl
  · rw [h]
    rfl

theorem entryFingerprint_isSome (cfg : FeedCfg) (hashD : String → String)
    (e : Entry) :
    entryFingerprint cfg hashD e = some (hashD "value") := by
  unfold entryFingerprint
  rw [unpackSndKey_getEntryContent]
  have h : pyStrip "value" = "value" := rfl
  rw [h]
  simp

theorem entryId_isSome (env : Env) (cfg : FeedCfg) (e : Entry) :
    ∃ v, entryId env cfg e = some v := by
  unfold entryId getEntryId
  cases htr : (if cfg.trust_guid then e.id else none) with
  | none => exact ⟨env.hashD "value", by rw [entryFingerprint_isSome]⟩
  | some i =>
    by_cases hie : i = ""
    · refine ⟨env.hashD "value", ?_⟩
      show (if i = "" then entryFingerprint cfg env.hashD e else some i) = _
      rw [if_pos hie, entryFingerprint_isSome]
    · refine ⟨i, ?_⟩
      show (if i = "" then entryFingerprint cfg env.hashD e else some i) = _
      rw [if_neg hie]

theorem any_of_mem_keys (hs : List (String × String)) (k : String)
    (h : k ∈ hs.map Prod.fst) :
    hs.any (fun p => decide (p.1 = k)) = true := by
  obtain ⟨p, hp, hk⟩ := List.mem_map.mp h
  exact List.any_eq_true.mpr ⟨p, hp, by simp [hk]⟩

theorem mem_keys_of_tail (p : String × String) (rest : List (String × String))
    (k : String) (h : k ∈ (p :: rest).map Prod.fst) (hp : ¬ p.1 = k) :
    k ∈ rest.map Prod.fst := by
  rcases List.mem_map.mp h with ⟨q, hq, hkq⟩
  rcases List.mem_cons.mp hq with rfl | hq2
  · exact absurd hkq hp
  · exact hkq ▸ List.mem_map_of_mem Prod.fst hq2

theorem odSet_keys (hs : List (String × String)) (k v : String)
    (h : k ∈ hs.map Prod.fst) :
    (odSet hs k v).map Prod.fst = hs.map Prod.fst := by
  unfold odSet
  rw [any_of_mem_keys hs k h, if_pos rfl, List.map_map]
  apply List.map_congr_left
  intro p _
  by_cases hp : p.1 = k
  · simp [hp]
  · simp [hp]

theorem lookup_map_replace (k v : String) : ∀ (hs : List (String × String)),
    k ∈ hs.map Prod.fst →
    hdrLookup (hs.map (fun p => if p.1 = k then (p.1, v) else p)) k = some v := by
  intro hs
  induction hs with
  | nil => intro h; simp at h
  | cons p rest ih =>
    intro h
    by_cases hp : p.1 = k
    · simp [hdrLookup, List.find?, hp]
    · have hmem := mem_keys_of_tail p rest k h hp
      simp only [List.map_cons]
      have hstep : hdrLookup
          ((if p.1 = k then (p.1, v) else p) ::
            rest.map (fun p => if p.1 = k then (p.1, v) else p)) k =
          hdrLookup (rest.map (fun p => if p.1 = k then (p.1, v) else p)) k := by
        simp [hdrLookup, List.find?, hp]
      rw [hstep]
      exact ih hmem

theorem odSet_lookup (hs : List (String × String)) (k v : String)
    (h : k ∈ hs.map Prod.fst) :
    hdrLookup (odSet hs k v) k = some v := by
  unfold odSet
  rw [any_of_mem_keys hs k h, if_pos rfl]
  exact lookup_map_replace k v hs h

theorem count_map_replace (k v : String) : ∀ (hs : List (String × String)),
    ((hs.map (fun p => if p.1 = k then (p.1, v) else p)).filter
        (fun p => decide (p.1 = k))).length =
      (hs.filter (fun p => decide (p.1 = k))).length := by
  intro hs
  induction hs with
  | nil => rfl
  | cons p rest ih =>
    by_cases hp : p.1 = k
    · simp only [List.map_cons, if_pos hp, List.filter]
      simp [hp, ih]
    · simp only [List.map_cons, if_neg hp, List.filter]
      simp [hp, ih]

theorem odSet_count (hs : List (String × String)) (k v : String)
    (h : k ∈ hs.map Prod.fst) :
    ((odSet hs k v).filter (fun p => decide (p.1 = k))).length =
      (hs.filter (fun p => decide (p.1 = k))).length := by
  unfold odSet
  rw [any_of_mem_keys hs k h, if_pos rfl]
  exact count_map_replace k v hs

/-- Claim C1: for every entry and every seen map, the entry is treated as
new (processed and emitted) unless its guid is already a key of the seen
map and the value stored under that key is exactly equal to the id computed
for the entry in this run; in particular, when the guid is a known key but
the stored id differs, the entry is processed again as an update. -/
theorem c1_new_unless_seen_exact (env : Env) (cfg : FeedCfg) (url : String)
    (parsed : Parsed) (seen : SeenMap) (uu : String) (e : Entry) :
    (processEntry env cfg url parsed seen uu e).isSome ↔
      ¬ seenLookup seen (entryGuid env cfg e) = some (entryId env cfg e) := by
  rw [Option.isSome_iff_ne_none, Ne, processEntry_eq_none_iff]

/-- Claim C3: every synthesized header whose value is absent (None) is
dropped from the built header list rather than emitted empty; an entry with
no link and no tags yields exactly the Date, Message-ID, User-Agent,
X-RSS-Feed and X-RSS-ID headers, and neither X-RSS-URL nor X-RSS-TAGS. -/
theorem c3_absent_headers_dropped (env : Env) (cfg : FeedCfg) (url uu : String)
    (e : Entry)
    (hlink : e.link = none)
    (htags : getEntryTags e = none)
    (hbonus : cfg.bonus_header = "") :
    (entryHeaders env cfg url uu (entryId env cfg e) e.link e).map Prod.fst =
      ["Date", "Message-ID", "User-Agent", "X-RSS-Feed", "X-RSS-ID"] := by
  obtain ⟨v, hv⟩ := entryId_isSome env cfg e
  unfold entryHeaders applyBonus synthHeaders
  rw [hbonus, hlink, htags, hv]
  simp

theorem c3_absent_headers_dropped_witness :
    (entryHeaders envW cfgW "http://feed.example/rss" "u0"
        (entryId envW cfgW (entryW "g")) (entryW "g").link (entryW "g")).map
        Prod.fst =
      ["Date", "Message-ID", "User-Agent", "X-RSS-Feed", "X-RSS-ID"] :=
  c3_absent_headers_dropped envW cfgW "http://feed.example/rss" "u0"
    (entryW "g") (by decide) (by decide) (by decide)

/-- Claim C6: content selection scans all candidates for the first
preferred type before scanning any candidate for the second, so whenever a
candidate of the first preferred type exists, the first such candidate is
returned no matter what comes earlier in the candidate order. -/
theorem c6_first_preferred_type_wins (cfg : FeedCfg) (e : Entry)
    (t1 t2 : String) (d : ContentDict)
    (hty : prefTypes cfg = [t1, t2])
    (hfind : (candidates e).find?
        (fun c => decide (dget c (PyKey.s "type") = some t1)) = some d) :
    getEntryContent cfg e = d := by
  simp only [getEntryContent]
  rw [hty]
  simp [List.filterMap_cons, hfind]

theorem c6_first_preferred_type_wins_witness :
    getEntryContent cfgHtml entryPH = mkContent "text/html" "H" :=
  c6_first_preferred_type_wins cfgHtml entryPH "text/html" "text/plain"
    (mkContent "text/html" "H") (by decide) (by decide)

/-- Claim C7 (evaluation): for an entry with no content variants and no
summary detail, selection returns the dict literal of feed.py:633, whose
string key "type" is ABSENT (the literal uses the builtin `type` object as
the key), while "value" maps to the empty string; the spec instead promises
a record whose type is text/plain. -/
theorem c7_empty_candidates_eval :
    getEntryContent cfgW entryEmpty = fallbackContent ∧
    dget (getEntryContent cfgW entryEmpty) (PyKey.s "type") = none ∧
    dget (getEntryContent cfgW entryEmpty) (PyKey.s "value") = some "" := by
  refine ⟨?_, ?_, ?_⟩ <;> decide

/-- Claim C4 (evaluation): with trust_guid disabled, the id resolved by the
code is the digest of the literal string "value" — the second KEY of the
content dict bound by the tuple unpacking at feed.py:436 — for every entry,
regardless of its content, link or title: entries with contents "AAA" and
"BBB" and an entry with no content but a link all get the same id.  The
spec instead promises the digest of the stripped content text, else of the
link, else of the title.  (envW.hashD prefixes its argument with "h:".) -/
theorem c4_id_ignores_content_eval :
    getEntryId cfgNoTrust envW.hashD entryA = some "h:value" ∧
    getEntryId cfgNoTrust envW.hashD entryB = some "h:value" ∧
    getEntryId cfgNoTrust envW.hashD entryLinkOnly = some "h:value" := by
  refine ⟨?_, ?_, ?_⟩ <;> decide

/-- Claim C5 (evaluation): a 404 raises HTTPError and a 301 updates the
feed URL and continues, as the spec says; but the fatal empty-result
combination (status 200, ordinary headers, zero entries, no detected
version) does NOT raise ProcessingError: the missing version has already
set the warned flag (feed.py:337), so the guard of feed.py:373 cannot hold
and classification returns normally. -/
theorem c5_classification_eval :
    checkForErrors "http://old.example/rss" parsed404 =
      Except.error (CheckErr.http 404) ∧
    checkForErrors "http://old.example/rss" parsed301 =
      Except.ok "http://new.example/rss" ∧
    classifyErr parsed200Empty = none ∧
    checkForErrors "http://old.example/rss" parsed200Empty =
      Except.ok "http://old.example/rss" :=
  ⟨rfl, rfl, rfl, rfl⟩

/-- Claim C10: a bonus-header line whose trimmed key equals the key of an
already-built header replaces that header value in place — the key order of
the list is unchanged, the stored value becomes the trimmed remainder of
the line, and no second header with the same key is added. -/
theorem c10_bonus_header_replaces_in_place (hs : List (String × String))
    (line key val : String) (rest : List String)
    (hsplit : pySplitOn line ":" = key :: val :: rest)
    (hmem : pyStrip key ∈ hs.map Prod.fst) :
    (bonusLine hs line).map Prod.fst = hs.map Prod.fst ∧
    hdrLookup (bonusLine hs line) (pyStrip key) =
      some (pyStrip (String.intercalate ":" (val :: rest))) ∧
    ((bonusLine hs line).filter (fun p => decide (p.1 = pyStrip key))).length =
      (hs.filter (fun p => decide (p.1 = pyStrip key))).length := by
  unfold bonusLine
  rw [hsplit]
  exact ⟨odSet_keys hs _ _ hmem, odSet_lookup hs _ _ hmem, odSet_count hs _ _ hmem⟩

theorem c10_bonus_header_replaces_in_place_witness :
    (bonusLine hs10 line10).map Prod.fst = hs10.map Prod.fst ∧
    hdrLookup (bonusLine hs10 line10) (pyStrip "User-Agent") =
      some (pyStrip (String.intercalate ":" ([" custom"] : List String))) ∧
    ((bonusLine hs10 line10).filter
        (fun p => decide (p.1 = pyStrip "User-Agent"))).length =
      (hs10.filter (fun p => decide (p.1 = pyStrip "User-Agent"))).length :=
  c10_bonus_header_replaces_in_place hs10 line10 "User-Agent" " custom" []
    (by decide) (by decide)

/-- Claim C9: after every run that completes, the etag and modified cursor
of the feed state are unconditionally overwritten with the values carried
by the parse result; when the result carries no etag or modified value the
stored cursor becomes absent rather than being preserved. -/
theorem c9_cursor_overwritten (env : Env) (cfg : FeedCfg) (parsed : Parsed)
    (st st1 : FeedState) (ems : List Emission)
    (h : run env cfg parsed st = Except.ok (st1, ems)) :
    st1.etag = parsed.etag ∧ st1.modified = parsed.modified := by
  unfold run at h
  by_cases hto : cfg.to_email = ""
  · rw [if_pos hto] at h
    exact absurd h (by simp)
  · rw [if_neg hto] at h
    cases hc : checkForErrors st.url parsed with
    | error err => rw [hc] at h; simp at h
    | ok u =>
      rw [hc] at h
      simp only [Except.ok.injEq, Prod.mk.injEq] at h
      obtain ⟨h1, -⟩ := h
      rw [← h1]
      exact ⟨rfl, rfl⟩

theorem c9_cursor_overwritten_witness :
    ∃ st1 ems, run envW cfgW (parsedW []) stOld = Except.ok (st1, ems) ∧
      st1.etag = none ∧ st1.modified = none := by
  have h : run envW cfgW (parsedW []) stOld =
      Except.ok ({ url := "http://feed.example/rss", etag := none,
                   modified := none, seen := [] }, []) := rfl
  refine ⟨_, _, h, ?_, ?_⟩
  · exact (c9_cursor_overwritten envW cfgW (parsedW []) stOld _ _ h).1
  · exact (c9_cursor_overwritten envW cfgW (parsedW []) stOld _ _ h).2

/-- Claim C2 is false as stated: on a parse result whose entry list holds
the same entry twice, the first run from an empty seen map emits only one
message for the two entries, because run records the guid/id pair of each
emitted entry before the next entry is examined. -/
theorem c2_counterexample_duplicate_entries :
    (run envW cfgW parsedDup stW).map (fun p => p.2.length) = Except.ok 1 ∧
    parsedDup.entries.length = 2 := ⟨rfl, rfl⟩

/-- Claim C2 (amended): for every parse result that passes fatal
classification, on a feed with a recipient, whose entries resolve to
pairwise distinct guids, running the pipeline twice from an empty seen map
emits one message per entry the first time and no message the second
time. -/
theorem c2_idempotent_distinct_guids (env : Env) (cfg : FeedCfg)
    (parsed : Parsed) (st : FeedState)
    (hto : ¬ cfg.to_email = "")
    (hchk : classifyErr parsed = none)
    (hseen : st.seen = [])
    (hdist : (parsed.entries.map (entryGuid env cfg)).Nodup) :
    ∃ st1 ems1 st2, run env cfg parsed st = Except.ok (st1, ems1) ∧
      ems1.length = parsed.entries.length ∧
      run env cfg parsed st1 = Except.ok (st2, []) := by
  have hrev : (parsed.entries.reverse.map (entryGuid env cfg)).Nodup := by
    rw [List.map_reverse, List.nodup_reverse]
    exact hdist
  have hfresh : ∀ e ∈ parsed.entries.reverse,
      seenLookup st.seen (entryGuid env cfg e) = none := by
    intro e _
    rw [hseen]
    rfl
  set url1 := if parsed.status.getD 200 = 301 then parsed.url else st.url with hu1
  obtain ⟨L1, L2, -⟩ := runLoop_all_fresh env cfg url1 parsed
    parsed.entries.reverse st.seen 0 hfresh hrev
  have hseen1 : (runLoop env cfg url1 parsed st.seen 0 parsed.entries.reverse).1
      = pairsOf env cfg parsed.entries.reverse := by
    rw [L1, hseen]
    simp
  have hrun1 : run env cfg parsed st = Except.ok
      ({ url := url1, etag := parsed.etag, modified := parsed.modified,
         seen := pairsOf env cfg parsed.entries.reverse },
       (runLoop env cfg url1 parsed st.seen 0 parsed.entries.reverse).2) := by
    unfold run checkForErrors
    rw [hchk, if_neg hto]
    show (Except.ok
        (({ url := url1, etag := parsed.etag, modified := parsed.modified,
            seen := (runLoop env cfg url1 parsed st.seen 0
              parsed.entries.reverse).1 } : FeedState),
         (runLoop env cfg url1 parsed st.seen 0 parsed.entries.reverse).2) :
        Except RunErr (FeedState × List Emission)) = _
    rw [hseen1]
  set url2 := if parsed.status.getD 200 = 301 then parsed.url else url1 with hu2
  have hall : ∀ e ∈ parsed.entries.reverse,
      seenLookup (pairsOf env cfg parsed.entries.reverse) (entryGuid env cfg e)
        = some (entryId env cfg e) := by
    intro e he
    exact pairs_lookup env cfg parsed.entries.reverse e he hrev
  have hloop2 : runLoop env cfg url2 parsed
      (pairsOf env cfg parsed.entries.reverse) 0 parsed.entries.reverse
      = (pairsOf env cfg parsed.entries.reverse, []) :=
    runLoop_all_seen env cfg url2 parsed parsed.entries.reverse
      (pairsOf env cfg parsed.entries.reverse) 0 hall
  refine ⟨_, _,
    ({ url := url2, etag := parsed.etag, modified := parsed.modified,
       seen := pairsOf env cfg parsed.entries.reverse } : FeedState),
    hrun1, ?_, ?_⟩
  · rw [L2, List.length_reverse]
  · unfold run checkForErrors
    rw [hchk, if_neg hto]
    show (Except.ok
        (({ url := url2, etag := parsed.etag, modified := parsed.modified,
            seen := (runLoop env cfg url2 parsed
              (pairsOf env cfg parsed.entries.reverse) 0
              parsed.entries.reverse).1 } : FeedState),
         (runLoop env cfg url2 parsed (pairsOf env cfg parsed.entries.reverse) 0
           parsed.entries.reverse).2) :
        Except RunErr (FeedState × List Emission)) =
      Except.ok
        (({ url := url2, etag := parsed.etag, modified := parsed.modified,
            seen := pairsOf env cfg parsed.entries.reverse } : FeedState),
         ([] : List Emission))
    rw [hloop2]

theorem c2_idempotent_distinct_guids_witness :
    ∃ st1 ems1 st2, run envW cfgW parsedTwo stW = Except.ok (st1, ems1) ∧
      ems1.length = parsedTwo.entries.length ∧
      run envW cfgW parsedTwo st1 = Except.ok (st2, []) :=
  c2_idempotent_distinct_guids envW cfgW parsedTwo stW (by decide) (by decide)
    rfl (by decide)

/-- Claim C8: entries are processed in reverse of the native order of the
result, oldest first: for a parse result listing E2 (newer) before E1
(older) and an empty seen map, one run emits the message of E1 before the
message of E2, and the final seen map holds exactly the two resolved guids
as keys, each mapped to the id of its entry. -/
theorem c8_oldest_first_and_seen_keys (env : Env) (cfg : FeedCfg)
    (st : FeedState) (parsed : Parsed) (E1 E2 : Entry)
    (hent : parsed.entries = [E2, E1])
    (hto : ¬ cfg.to_email = "")
    (hchk : classifyErr parsed = none)
    (hseen : st.seen = [])
    (hg : entryGuid env cfg E1 ≠ entryGuid env cfg E2) :
    ∃ st1 em1 em2,
      run env cfg parsed st = Except.ok (st1, [em1, em2]) ∧
      em1.guid = entryGuid env cfg E1 ∧ em1.id = entryId env cfg E1 ∧
      em2.guid = entryGuid env cfg E2 ∧ em2.id = entryId env cfg E2 ∧
      st1.seen = [(entryGuid env cfg E1, entryId env cfg E1),
                  (entryGuid env cfg E2, entryId env cfg E2)] := by
  have hrevent : parsed.entries.reverse = [E1, E2] := by rw [hent]; rfl
  have hnodup : (([E1, E2] : List Entry).map (entryGuid env cfg)).Nodup := by
    simp [hg]
  have hfresh : ∀ e ∈ ([E1, E2] : List Entry),
      seenLookup st.seen (entryGuid env cfg e) = none := by
    intro e _
    rw [hseen]
    rfl
  set url1 := if parsed.status.getD 200 = 301 then parsed.url else st.url with hu1
  obtain ⟨L1, L2, L3⟩ := runLoop_all_fresh env cfg url1 parsed [E1, E2]
    st.seen 0 hfresh hnodup
  obtain ⟨em1, em2, hl⟩ := List.length_eq_two.mp L2
  rw [hl] at L3
  have hpairs : pairsOf env cfg [E1, E2] =
      [(entryGuid env cfg E1, entryId env cfg E1),
       (entryGuid env cfg E2, entryId env cfg E2)] := rfl
  rw [hpairs] at L1 L3
  simp only [List.map_cons, List.map_nil, List.cons.injEq, Prod.mk.injEq] at L3
  obtain ⟨⟨h1g, h1i⟩, ⟨h2g, h2i⟩, -⟩ := L3
  have hseen1 : (runLoop env cfg url1 parsed st.seen 0
      ([E1, E2] : List Entry)).1 =
      [(entryGuid env cfg E1, entryId env cfg E1),
       (entryGuid env cfg E2, entryId env cfg E2)] := by
    rw [L1, hseen]
    simp
  refine ⟨({ url := url1, etag := parsed.etag, modified := parsed.modified,
             seen := [(entryGuid env cfg E1, entryId env cfg E1),
                      (entryGuid env cfg E2, entryId env cfg E2)] } : FeedState),
          em1, em2, ?_, h1g, h1i, h2g, h2i, rfl⟩
  unfold run checkForErrors
  rw [hchk, if_neg hto]
  show (Except.ok
      (({ url := url1, etag := parsed.etag, modified := parsed.modified,
          seen := (runLoop env cfg url1 parsed st.seen 0
            parsed.entries.reverse).1 } : FeedState),
       (runLoop env cfg url1 parsed st.seen 0 parsed.entries.reverse).2) :
      Except RunErr (FeedState × List Emission)) =
    Except.ok
      (({ url := url1, etag := parsed.etag, modified := parsed.modified,
          seen := [(entryGuid env cfg E1, entryId env cfg E1),
                   (entryGuid env cfg E2, entryId env cfg E2)] } : FeedState),
       [em1, em2])
  rw [hrevent, hseen1, hl]

theorem c8_oldest_first_and_seen_keys_witness :
    ∃ st1 em1 em2,
      run envW cfgW parsedTwo stW = Except.ok (st1, [em1, em2]) ∧
      em1.guid = entryGuid envW cfgW (entryW "e1") ∧
      em1.id = entryId envW cfgW (entryW "e1") ∧
      em2.guid = entryGuid envW cfgW (entryW "e2") ∧
      em2.id = entryId envW cfgW (entryW "e2") ∧
      st1.seen = [(entryGuid envW cfgW (entryW "e1"),
                   entryId envW cfgW (entryW "e1")),
                  (entryGuid envW cfgW (entryW "e2"),
                   entryId envW cfgW (entryW "e2"))] :=
  c8_oldest_first_and_seen_keys envW cfgW stW parsedTwo (entryW "e1")
    (entryW "e2") rfl (by decide) (by decide) rfl (by decide)

end RssToEmail
